import Mathlib

/-!
Verification of `src/crates/rpc-types/src/eth/fee.rs` (alloy).

The file embeds the two value types of the module — `FeeHistory` (the
`eth_feeHistory` response payload) and `TxGasAndReward` (the reward
comparator) — together with the serde (de)serialization behaviour induced
by the struct's attributes, and proves the spec's claims about them.

Modelling conventions:
* Rust `u64` / `u128` values are `Nat`s; the width bounds (`< 2^64`,
  `< 2^128`) appear as explicit hypotheses or range checks where the Rust
  types enforce them.
* Rust `f64` values are never computed with by this module — they are only
  carried and copied. They are embedded as an abstract type parameter `F`;
  on the wire a `Json.num` node carries the `F` value, and rendering a
  number is delegated to a caller-supplied `F → String` function. In
  concrete scenarios `F := String` with the identity rendering, i.e. an
  `f64` is represented by its decimal wire token (e.g. `"0.0"` for `0.0`).
* JSON is embedded as an AST (`Json F`); object serialization produces an
  ordered key/value list matching serde's field-declaration order, and
  deserialization looks fields up by key (first occurrence), ignoring
  unknown keys, as serde's derived `Deserialize` does.
-/

namespace AlloyFee

/-- Struct `TxGasAndReward` from fee.rs: gas used by a transaction together with
its effective gas tip. -/
structure TxGasAndReward where
  gas_used : Nat
  reward : Nat
  deriving DecidableEq

/-- The `Ord` implementation for `TxGasAndReward` in fee.rs: it compares
only the `reward` field (`self.reward.cmp(&other.reward)`). -/
def TxGasAndReward.cmp (a b : TxGasAndReward) : Ordering :=
  compare a.reward b.reward

/-- Struct `FeeHistory` from fee.rs, the response type for `eth_feeHistory`.
`F` abstracts the `f64` element type of the two ratio vectors. -/
structure FeeHistory (F : Type) where
  base_fee_per_gas : List Nat
  gas_used_ratio : List F
  base_fee_per_blob_gas : List Nat
  blob_gas_used_ratio : List F
  oldest_block : Nat
  reward : Option (List (List Nat))
  deriving DecidableEq

variable {F : Type}

/-- Method `FeeHistory::latest_block_base_fee`: the second last element of
`base_fee_per_gas` (`self.base_fee_per_gas.iter().rev().nth(1).copied()`). -/
def FeeHistory.latest_block_base_fee (fh : FeeHistory F) : Option Nat :=
  fh.base_fee_per_gas.reverse[1]?

/-- Method `FeeHistory::next_block_base_fee`: the last element of
`base_fee_per_gas` (`self.base_fee_per_gas.last().copied()`). -/
def FeeHistory.next_block_base_fee (fh : FeeHistory F) : Option Nat :=
  fh.base_fee_per_gas.getLast?

/-- Method `FeeHistory::next_block_blob_base_fee`: the last element of
`base_fee_per_blob_gas`, filtered against the zero sentinel
(`.last().filter(|fee| **fee != 0).copied()`). -/
def FeeHistory.next_block_blob_base_fee (fh : FeeHistory F) : Option Nat :=
  (fh.base_fee_per_blob_gas.getLast?).filter (fun fee => fee != 0)

/-- Method `FeeHistory::latest_block_blob_base_fee`: the second last element of
`base_fee_per_blob_gas`, filtered against the zero sentinel
(`.iter().rev().nth(1).filter(|fee| **fee != 0).copied()`). -/
def FeeHistory.latest_block_blob_base_fee (fh : FeeHistory F) : Option Nat :=
  (fh.base_fee_per_blob_gas.reverse[1]?).filter (fun fee => fee != 0)

/-! ### The hex codec

The struct's integer fields are (de)serialized through
`alloy_serde::num::u128_vec_via_ruint`, `u64_via_ruint` and
`u128_vec_vec_opt_via_ruint`, which live in this repository but outside
the provided sources. -/

/-- Modelled from the spec: the hex digit alphabet of the ruint codecs
(`alloy_serde::num`, not under src/): digits `0`–`9` then lowercase
`a`–`f`. -/
def hexDigitChar (n : Nat) : Char :=
  if n < 10 then Char.ofNat (48 + n) else Char.ofNat (87 + n)

/-- Modelled from the spec: the numeric value of a hex digit character
accepted by the ruint codecs (`alloy_serde::num`, not under src/). -/
def hexCharVal (c : Char) : Option Nat :=
  if 48 ≤ c.toNat ∧ c.toNat ≤ 57 then some (c.toNat - 48)
  else if 97 ≤ c.toNat ∧ c.toNat ≤ 102 then some (c.toNat - 87)
  else none

/-- Big-endian hex digits of `n`, accumulator style; `fuel` bounds the
recursion depth (any `fuel` with `n < 16 ^ fuel` gives the true digits). -/
def natToHexAux : Nat → Nat → List Char → List Char
  | 0, _, acc => acc
  | fuel + 1, n, acc =>
    if n < 16 then hexDigitChar n :: acc
    else natToHexAux fuel (n / 16) (hexDigitChar (n % 16) :: acc)

/-- Big-endian hex digits of `n`, without leading zeros (`['0']` for 0). -/
def natHexDigits (n : Nat) : List Char :=
  natToHexAux (n + 1) n []

/-- Modelled from the spec: the ruint serialization of an unsigned integer
(`alloy_serde::num`, not under src/): a `0x`-prefixed minimal hex string. -/
def toHexString (n : Nat) : String :=
  String.mk ('0' :: 'x' :: natHexDigits n)

/-- Fold a big-endian hex digit list into a number; `none` on a non-hex
character. -/
def parseHexAux (acc : Nat) : List Char → Option Nat
  | [] => some acc
  | c :: cs =>
    match hexCharVal c with
    | some d => parseHexAux (acc * 16 + d) cs
    | none => none

/-- Modelled from the spec: ruint deserialization of a `0x`-prefixed hex
string bounded by the integer width (`alloy_serde::num`, not under src/):
`bits` is the width of the target type (64 or 128). -/
def parseHexString (bits : Nat) (s : String) : Option Nat :=
  match s.data with
  | '0' :: 'x' :: rest =>
    match rest with
    | [] => none
    | _ =>
      (parseHexAux 0 rest).bind (fun m => if m < 2 ^ bits then some m else none)
  | _ => none

/-! ### JSON embedding -/

/-- A JSON value; `F` is the abstract `f64` number type (strings of the
wire format never need escaping here, all emitted strings are hex). -/
inductive Json (F : Type) where
  | str : String → Json F
  | num : F → Json F
  | arr : List (Json F) → Json F
  | obj : List (String × Json F) → Json F

/-- Encode a `Vec<u128>` field the way `u128_vec_via_ruint` does: an array
of `0x`-prefixed hex strings. -/
def encodeU128Vec (l : List Nat) : Json F :=
  Json.arr (l.map (fun n => Json.str (toHexString n)))

/-- The serde `Serialize` output of `FeeHistory`, as the ordered key/value
list of the emitted JSON object: fields in declaration order, camelCase
names, `base_fee_per_gas` / `base_fee_per_blob_gas` / `blob_gas_used_ratio`
skipped when empty (`skip_serializing_if = "Vec::is_empty"`), `reward`
skipped when `None` (`skip_serializing_if = "Option::is_none"`),
`gas_used_ratio` and `oldest_block` always emitted. -/
def serializeFields (fh : FeeHistory F) : List (String × Json F) :=
  (if fh.base_fee_per_gas.isEmpty then []
   else [("baseFeePerGas", encodeU128Vec fh.base_fee_per_gas)])
  ++ [("gasUsedRatio", Json.arr (fh.gas_used_ratio.map Json.num))]
  ++ (if fh.base_fee_per_blob_gas.isEmpty then []
      else [("baseFeePerBlobGas", encodeU128Vec fh.base_fee_per_blob_gas)])
  ++ (if fh.blob_gas_used_ratio.isEmpty then []
      else [("blobGasUsedRatio", Json.arr (fh.blob_gas_used_ratio.map Json.num))])
  ++ [("oldestBlock", Json.str (toHexString fh.oldest_block))]
  ++ (match fh.reward with
      | none => []
      | some r => [("reward", Json.arr (r.map (fun inner => encodeU128Vec inner)))])

/-- The serde `Serialize` output of `FeeHistory` as a JSON value. -/
def serialize (fh : FeeHistory F) : Json F :=
  Json.obj (serializeFields fh)

/-- First value bound to key `k` in an object's key/value list. -/
def lookupKey (kvs : List (String × Json F)) (k : String) : Option (Json F) :=
  (kvs.find? (fun kv => kv.1 == k)).map (fun kv => kv.2)

/-- Apply `f` to every element, failing if any application fails. -/
def mapOption (f : α → Option β) : List α → Option (List β)
  | [] => some []
  | x :: xs => (f x).bind (fun y => (mapOption f xs).map (fun ys => y :: ys))

/-- Deserialize one `u128` element: a hex string bounded by `2 ^ 128`. -/
def parseU128 : Json F → Option Nat
  | Json.str s => parseHexString 128 s
  | _ => none

/-- Deserialize a `Vec<u128>` field (`u128_vec_via_ruint`). -/
def parseU128Vec : Json F → Option (List Nat)
  | Json.arr xs => mapOption parseU128 xs
  | _ => none

/-- Deserialize one `f64` element: a JSON number node. -/
def parseNum : Json F → Option F
  | Json.num x => some x
  | _ => none

/-- Deserialize a `Vec<f64>` field. -/
def parseNumVec : Json F → Option (List F)
  | Json.arr xs => mapOption parseNum xs
  | _ => none

/-- Deserialize the `u64` field (`u64_via_ruint`). -/
def parseU64 : Json F → Option Nat
  | Json.str s => parseHexString 64 s
  | _ => none

/-- Deserialize the `Vec<Vec<u128>>` payload of `reward`
(`u128_vec_vec_opt_via_ruint`, present-key case). -/
def parseRewardVec : Json F → Option (List (List Nat))
  | Json.arr xs => mapOption parseU128Vec xs
  | _ => none

/-- Field extraction for a `#[serde(default)]` field: a missing key yields
the default, a present key must parse. -/
def getOrDefault (kvs : List (String × Json F)) (k : String)
    (p : Json F → Option α) (d : α) : Option α :=
  match lookupKey kvs k with
  | none => some d
  | some j => p j

/-- The serde `Deserialize` behaviour of `FeeHistory` on an object's
key/value list: `gas_used_ratio` is required (no `default` attribute — the
serde attribute on it is commented out in fee.rs), every other field
defaults when its key is missing; unknown keys are ignored. -/
def deserializeFields (kvs : List (String × Json F)) : Option (FeeHistory F) :=
  (getOrDefault kvs "baseFeePerGas" parseU128Vec []).bind (fun bfpg =>
    ((lookupKey kvs "gasUsedRatio").bind parseNumVec).bind (fun gur =>
      (getOrDefault kvs "baseFeePerBlobGas" parseU128Vec []).bind (fun bfpbg =>
        (getOrDefault kvs "blobGasUsedRatio" parseNumVec []).bind (fun bgur =>
          (getOrDefault kvs "oldestBlock" parseU64 0).bind (fun ob =>
            (getOrDefault kvs "reward"
                (fun j => (parseRewardVec j).map (fun r => some r)) none).bind
              (fun rw => some ⟨bfpg, gur, bfpbg, bgur, ob, rw⟩))))))

/-- The serde `Deserialize` behaviour of `FeeHistory` on a JSON value:
anything but an object is rejected. -/
def deserialize : Json F → Option (FeeHistory F)
  | Json.obj kvs => deserializeFields kvs
  | _ => none

/-! ### Rendering to the wire string

serde_json's compact printer. `rf` renders an `f64` number token (external
library behaviour, abstracted). The serializer output has nesting depth at
most 4 (object, `reward` array, inner array, string), so a fuel of 4 is
exact for rendering `serialize fh`. -/

/-- Compact JSON printing with a structural fuel bound. -/
def renderJson (rf : F → String) : Nat → Json F → String
  | 0, _ => ""
  | _ + 1, Json.str s => "\"" ++ s ++ "\""
  | _ + 1, Json.num x => rf x
  | fuel + 1, Json.arr xs =>
    "[" ++ String.intercalate "," (xs.map (renderJson rf fuel)) ++ "]"
  | fuel + 1, Json.obj kvs =>
    "\x7b" ++ String.intercalate ","
        (kvs.map (fun kv => "\"" ++ kv.1 ++ "\":" ++ renderJson rf fuel kv.2))
      ++ "\x7d"

/-- The full wire string serde_json produces for a `FeeHistory` value. -/
def serializeString (rf : F → String) (fh : FeeHistory F) : String :=
  renderJson rf 4 (serialize fh)

/-- Well-formedness of a `FeeHistory` value: the width bounds enforced by
the Rust types (`u128` elements, `u64` oldest block) together with the
length invariants of spec §3 (one trailing "next block" entry in the fee
arrays, one reward row per block). -/
def FeeHistory.Wf (fh : FeeHistory F) : Prop :=
  (∀ x ∈ fh.base_fee_per_gas, x < 2 ^ 128) ∧
  (∀ x ∈ fh.base_fee_per_blob_gas, x < 2 ^ 128) ∧
  fh.oldest_block < 2 ^ 64 ∧
  (∀ inner ∈ fh.reward.getD [], ∀ x ∈ inner, x < 2 ^ 128) ∧
  (fh.base_fee_per_gas = [] ∨ fh.gas_used_ratio.length = 0 ∨
    fh.base_fee_per_gas.length = fh.gas_used_ratio.length + 1) ∧
  (fh.base_fee_per_blob_gas = [] ∨ fh.blob_gas_used_ratio.length = 0 ∨
    fh.base_fee_per_blob_gas.length = fh.blob_gas_used_ratio.length + 1) ∧
  (fh.reward = none ∨
    (fh.reward.getD []).length = fh.gas_used_ratio.length)

instance (fh : FeeHistory F) : Decidable fh.Wf := by
  unfold FeeHistory.Wf
  exact inferInstance

/-- Drop every entry of an object's key/value list whose key is in `S`
(an input "lacking" the fields named by `S`). -/
def removeKeys (S : List String) (kvs : List (String × Json F)) :
    List (String × Json F) :=
  kvs.filter (fun kv => !S.contains kv.1)

/-! ### The literal scenario of `test_fee_history_serde` -/

/-- The key/value list of the sample input of `test_fee_history_serde`. -/
def sampleKvs : List (String × Json String) :=
  [("baseFeePerGas", Json.arr [Json.str "0x342770c0", Json.str "0x2da282a8"]),
   ("gasUsedRatio", Json.arr [Json.num "0.0"]),
   ("baseFeePerBlobGas", Json.arr [Json.str "0x0", Json.str "0x0"]),
   ("blobGasUsedRatio", Json.arr [Json.num "0.0"]),
   ("oldestBlock", Json.str "0x1")]

/-- The sample input of `test_fee_history_serde` as a JSON value. -/
def sampleInput : Json String :=
  Json.obj sampleKvs

/-- The expected `FeeHistory` value of `test_fee_history_serde`. -/
def sampleValue : FeeHistory String :=
  ⟨[875000000, 765625000], ["0.0"], [0, 0], ["0.0"], 1, none⟩

/-- The sample wire string of `test_fee_history_serde`. -/
def sampleWire : String :=
  "\x7b\"baseFeePerGas\":[\"0x342770c0\",\"0x2da282a8\"],\"gasUsedRatio\":[0.0],\"baseFeePerBlobGas\":[\"0x0\",\"0x0\"],\"blobGasUsedRatio\":[0.0],\"oldestBlock\":\"0x1\"\x7d"


/-! ### Properties of the hex codec -/

theorem natToHexAux_append (fuel : Nat) :
    ∀ (n : Nat) (acc : List Char),
      natToHexAux fuel n acc = natToHexAux fuel n [] ++ acc := by
  induction fuel with
  | zero => intro n acc; simp [natToHexAux]
  | succ fuel ih =>
    intro n acc
    by_cases h : n < 16
    · simp [natToHexAux, h]
    · simp only [natToHexAux, if_neg h]
      rw [ih (n / 16) (hexDigitChar (n % 16) :: acc),
        ih (n / 16) [hexDigitChar (n % 16)]]
      simp

theorem natToHexAux_fuel_irrel :
    ∀ (f₁ f₂ n : Nat) (acc : List Char), 0 < f₁ → 0 < f₂ →
      n < 16 ^ f₁ → n < 16 ^ f₂ →
      natToHexAux f₁ n acc = natToHexAux f₂ n acc := by
  intro f₁
  induction f₁ with
  | zero => intro f₂ n acc h₁; omega
  | succ f₁ ih =>
    intro f₂ n acc _ h₂ hb₁ hb₂
    match f₂, h₂ with
    | f₂ + 1, _ =>
      by_cases h : n < 16
      · simp [natToHexAux, h]
      · have hf₁ : 0 < f₁ := by
          by_contra hc
          have : f₁ = 0 := by omega
          subst this; simp at hb₁; omega
        have hf₂ : 0 < f₂ := by
          by_contra hc
          have : f₂ = 0 := by omega
          subst this; simp at hb₂; omega
        have hd₁ : n / 16 < 16 ^ f₁ := by
          rw [Nat.div_lt_iff_lt_mul (by norm_num)]
          calc n < 16 ^ (f₁ + 1) := hb₁
            _ = 16 ^ f₁ * 16 := by ring
        have hd₂ : n / 16 < 16 ^ f₂ := by
          rw [Nat.div_lt_iff_lt_mul (by norm_num)]
          calc n < 16 ^ (f₂ + 1) := hb₂
            _ = 16 ^ f₂ * 16 := by ring
        simp only [natToHexAux, if_neg h]
        exact ih f₂ (n / 16) _ hf₁ hf₂ hd₁ hd₂

theorem lt_sixteen_pow_succ_self (n : Nat) : n < 16 ^ (n + 1) :=
  Nat.lt_trans (Nat.lt_succ_self n) (Nat.lt_pow_self (by norm_num) (n + 1))

theorem natHexDigits_lt (n : Nat) (h : n < 16) :
    natHexDigits n = [hexDigitChar n] := by
  simp [natHexDigits, natToHexAux, h]

theorem natHexDigits_ge (n : Nat) (h : 16 ≤ n) :
    natHexDigits n = natHexDigits (n / 16) ++ [hexDigitChar (n % 16)] := by
  have h1 : natHexDigits n = natToHexAux n (n / 16) [hexDigitChar (n % 16)] := by
    simp [natHexDigits, natToHexAux, Nat.not_lt.mpr h]
  rw [h1, natToHexAux_append]
  congr 1
  apply natToHexAux_fuel_irrel
  · omega
  · omega
  · calc n / 16 < n := Nat.div_lt_self (by omega) (by norm_num)
      _ < 16 ^ n := Nat.lt_pow_self (by norm_num) n
  · exact lt_sixteen_pow_succ_self (n / 16)

theorem natHexDigits_ne_nil (n : Nat) : natHexDigits n ≠ [] := by
  by_cases h : n < 16
  · rw [natHexDigits_lt n h]; simp
  · rw [natHexDigits_ge n (by omega)]; simp

theorem hexDigitChar_ne_zero_char (n : Nat) (h0 : 0 < n) (h16 : n < 16) :
    hexDigitChar n ≠ '0' := by
  interval_cases n <;> decide

theorem natHexDigits_head_ne_zero (n : Nat) (h : 0 < n) :
    (natHexDigits n).head? ≠ some '0' := by
  induction n using Nat.strong_induction_on with
  | _ n ih =>
    by_cases h16 : n < 16
    · rw [natHexDigits_lt n h16]
      simpa using hexDigitChar_ne_zero_char n h h16
    · rw [natHexDigits_ge n (by omega)]
      have hq : 0 < n / 16 := Nat.div_pos (by omega) (by norm_num)
      have hlt : n / 16 < n := Nat.div_lt_self (by omega) (by norm_num)
      have := ih (n / 16) hlt hq
      cases hd : natHexDigits (n / 16) with
      | nil => exact absurd hd (natHexDigits_ne_nil (n / 16))
      | cons c cs => rw [hd] at this; simpa using this

theorem hexCharVal_hexDigitChar (d : Nat) (h : d < 16) :
    hexCharVal (hexDigitChar d) = some d := by
  interval_cases d <;> decide

theorem parseHexAux_append (l₁ l₂ : List Char) (acc : Nat) :
    parseHexAux acc (l₁ ++ l₂) =
      (parseHexAux acc l₁).bind (fun a => parseHexAux a l₂) := by
  induction l₁ generalizing acc with
  | nil => simp [parseHexAux]
  | cons c cs ih =>
    simp only [List.cons_append, parseHexAux]
    cases hexCharVal c with
    | none => simp
    | some d => simp [ih]

theorem parseHexAux_natHexDigits (n : Nat) :
    parseHexAux 0 (natHexDigits n) = some n := by
  induction n using Nat.strong_induction_on with
  | _ n ih =>
    by_cases h16 : n < 16
    · rw [natHexDigits_lt n h16]
      simp [parseHexAux, hexCharVal_hexDigitChar n h16]
    · rw [natHexDigits_ge n (by omega)]
      rw [parseHexAux_append]
      have hlt : n / 16 < n := Nat.div_lt_self (by omega) (by norm_num)
      rw [ih (n / 16) hlt]
      have hm : n % 16 < 16 := Nat.mod_lt n (by norm_num)
      simp [parseHexAux, hexCharVal_hexDigitChar (n % 16) hm]
      omega

theorem parseHexString_toHexString (bits n : Nat) (h : n < 2 ^ bits) :
    parseHexString bits (toHexString n) = some n := by
  have hdata : (toHexString n).data = '0' :: 'x' :: natHexDigits n := rfl
  unfold parseHexString
  rw [hdata]
  cases hd : natHexDigits n with
  | nil => exact absurd hd (natHexDigits_ne_nil n)
  | cons c cs =>
    simp only []
    rw [← hd, parseHexAux_natHexDigits n]
    simp [h]

/-! ### Object lookup helpers -/

theorem lookupKey_cons (k' : String) (v : Json F)
    (rest : List (String × Json F)) (k : String) :
    lookupKey ((k', v) :: rest) k =
      if k' == k then some v else lookupKey rest k := by
  unfold lookupKey
  cases h : k' == k <;> simp [List.find?_cons, h]

theorem lookupKey_append (l₁ l₂ : List (String × Json F)) (k : String) :
    lookupKey (l₁ ++ l₂) k = (lookupKey l₁ k).or (lookupKey l₂ k) := by
  unfold lookupKey
  rw [List.find?_append]
  cases List.find? (fun kv => kv.1 == k) l₁ <;> simp

theorem lookup_ser_baseFeePerGas (fh : FeeHistory F) :
    lookupKey (serializeFields fh) "baseFeePerGas" =
      if fh.base_fee_per_gas.isEmpty then none
      else some (encodeU128Vec fh.base_fee_per_gas) := by
  unfold serializeFields
  by_cases h1 : fh.base_fee_per_gas.isEmpty <;>
    by_cases h2 : fh.base_fee_per_blob_gas.isEmpty <;>
      by_cases h3 : fh.blob_gas_used_ratio.isEmpty <;>
        cases h4 : fh.reward <;>
          simp [h1, h2, h3, h4, lookupKey_append, lookupKey_cons, lookupKey]

theorem lookup_ser_gasUsedRatio (fh : FeeHistory F) :
    lookupKey (serializeFields fh) "gasUsedRatio" =
      some (Json.arr (fh.gas_used_ratio.map Json.num)) := by
  unfold serializeFields
  by_cases h1 : fh.base_fee_per_gas.isEmpty <;>
    by_cases h2 : fh.base_fee_per_blob_gas.isEmpty <;>
      by_cases h3 : fh.blob_gas_used_ratio.isEmpty <;>
        cases h4 : fh.reward <;>
          simp [h1, h2, h3, h4, lookupKey_append, lookupKey_cons, lookupKey]

theorem lookup_ser_baseFeePerBlobGas (fh : FeeHistory F) :
    lookupKey (serializeFields fh) "baseFeePerBlobGas" =
      if fh.base_fee_per_blob_gas.isEmpty then none
      else some (encodeU128Vec fh.base_fee_per_blob_gas) := by
  unfold serializeFields
  by_cases h1 : fh.base_fee_per_gas.isEmpty <;>
    by_cases h2 : fh.base_fee_per_blob_gas.isEmpty <;>
      by_cases h3 : fh.blob_gas_used_ratio.isEmpty <;>
        cases h4 : fh.reward <;>
          simp [h1, h2, h3, h4, lookupKey_append, lookupKey_cons, lookupKey]

theorem lookup_ser_blobGasUsedRatio (fh : FeeHistory F) :
    lookupKey (serializeFields fh) "blobGasUsedRatio" =
      if fh.blob_gas_used_ratio.isEmpty then none
      else some (Json.arr (fh.blob_gas_used_ratio.map Json.num)) := by
  unfold serializeFields
  by_cases h1 : fh.base_fee_per_gas.isEmpty <;>
    by_cases h2 : fh.base_fee_per_blob_gas.isEmpty <;>
      by_cases h3 : fh.blob_gas_used_ratio.isEmpty <;>
        cases h4 : fh.reward <;>
          simp [h1, h2, h3, h4, lookupKey_append, lookupKey_cons, lookupKey]

theorem lookup_ser_oldestBlock (fh : FeeHistory F) :
    lookupKey (serializeFields fh) "oldestBlock" =
      some (Json.str (toHexString fh.oldest_block)) := by
  unfold serializeFields
  by_cases h1 : fh.base_fee_per_gas.isEmpty <;>
    by_cases h2 : fh.base_fee_per_blob_gas.isEmpty <;>
      by_cases h3 : fh.blob_gas_used_ratio.isEmpty <;>
        cases h4 : fh.reward <;>
          simp [h1, h2, h3, h4, lookupKey_append, lookupKey_cons, lookupKey]

theorem lookup_ser_reward (fh : FeeHistory F) :
    lookupKey (serializeFields fh) "reward" =
      fh.reward.map (fun r =>
        Json.arr (r.map (fun inner => encodeU128Vec inner))) := by
  unfold serializeFields
  by_cases h1 : fh.base_fee_per_gas.isEmpty <;>
    by_cases h2 : fh.base_fee_per_blob_gas.isEmpty <;>
      by_cases h3 : fh.blob_gas_used_ratio.isEmpty <;>
        cases h4 : fh.reward <;>
          simp [h1, h2, h3, h4, lookupKey_append, lookupKey_cons, lookupKey]

theorem lookupKey_removeKeys (S : List String)
    (kvs : List (String × Json F)) (k : String) :
    lookupKey (removeKeys S kvs) k =
      if S.contains k then none else lookupKey kvs k := by
  induction kvs with
  | nil => cases h : S.contains k <;> simp [removeKeys, lookupKey, h]
  | cons kv rest ih =>
    obtain ⟨k', v⟩ := kv
    have hrest : List.filter (fun kv => !S.contains kv.1) rest = removeKeys S rest :=
      rfl
    rw [removeKeys, List.filter_cons]
    by_cases hp : S.contains k'
    · have hm : k' ∈ S := List.mem_of_elem_eq_true hp
      rw [if_neg (by simp [hm]), hrest, ih, lookupKey_cons]
      by_cases he : k' == k
      · have hk : k' = k := by simpa using he
        subst hk
        simp [hm, he]
      · simp [he]
    · have hm : k' ∉ S := fun hmem => hp (List.elem_eq_true_of_mem hmem)
      rw [if_pos (by simp [hm]), lookupKey_cons, hrest, ih, lookupKey_cons]
      by_cases he : k' == k
      · have hk : k' = k := by simpa using he
        subst hk
        simp [hm]
      · simp [he]

/-! ### Parse/encode inverses -/

theorem mapOption_map_eq_some {α β : Type _} (f : β → Option α) (g : α → β)
    (l : List α) (h : ∀ x ∈ l, f (g x) = some x) :
    mapOption f (l.map g) = some l := by
  induction l with
  | nil => rfl
  | cons x xs ih =>
    simp only [List.map_cons, mapOption, h x (by simp)]
    rw [ih (fun y hy => h y (by simp [hy]))]
    rfl

theorem parseU128_encode (n : Nat) (h : n < 2 ^ 128) :
    parseU128 (Json.str (toHexString n) : Json F) = some n := by
  simp [parseU128, parseHexString_toHexString 128 n h]

theorem parseU128Vec_encode (l : List Nat) (h : ∀ x ∈ l, x < 2 ^ 128) :
    parseU128Vec (encodeU128Vec l : Json F) = some l := by
  unfold encodeU128Vec parseU128Vec
  exact mapOption_map_eq_some _ _ _ (fun x hx => parseU128_encode x (h x hx))

theorem parseNumVec_map (l : List F) :
    parseNumVec (Json.arr (l.map Json.num)) = some l := by
  unfold parseNumVec
  exact mapOption_map_eq_some _ _ _ (fun x _ => rfl)

theorem parseRewardVec_encode (r : List (List Nat))
    (h : ∀ inner ∈ r, ∀ x ∈ inner, x < 2 ^ 128) :
    parseRewardVec (Json.arr (r.map (fun inner => encodeU128Vec inner)) : Json F) =
      some r := by
  unfold parseRewardVec
  exact mapOption_map_eq_some _ _ _
    (fun inner hin => parseU128Vec_encode inner (h inner hin))

/-! ### Characterizing a successful deserialization -/

theorem deserializeFields_eq_some (kvs : List (String × Json F))
    (fh : FeeHistory F) :
    deserializeFields kvs = some fh ↔
      getOrDefault kvs "baseFeePerGas" parseU128Vec [] =
          some fh.base_fee_per_gas ∧
      (lookupKey kvs "gasUsedRatio").bind parseNumVec =
          some fh.gas_used_ratio ∧
      getOrDefault kvs "baseFeePerBlobGas" parseU128Vec [] =
          some fh.base_fee_per_blob_gas ∧
      getOrDefault kvs "blobGasUsedRatio" parseNumVec [] =
          some fh.blob_gas_used_ratio ∧
      getOrDefault kvs "oldestBlock" parseU64 0 = some fh.oldest_block ∧
      getOrDefault kvs "reward"
          (fun j => (parseRewardVec j).map (fun r => some r)) none =
        some fh.reward := by
  constructor
  · intro h
    unfold deserializeFields at h
    simp only [Option.bind_eq_some] at h
    obtain ⟨a, ha, b, hb, c, hc, d, hd, e, he, f, hf, hfin⟩ := h
    obtain rfl : (⟨a, b, c, d, e, f⟩ : FeeHistory F) = fh := Option.some.inj hfin
    exact ⟨ha, Option.bind_eq_some.mpr hb, hc, hd, he, hf⟩
  · intro ⟨h1, h2, h3, h4, h5, h6⟩
    unfold deserializeFields
    rw [h1, h2, h3, h4, h5, h6]
    rfl

theorem getOrDefault_of_none {α : Type _} {kvs : List (String × Json F)}
    {k : String} {p : Json F → Option α} {d : α}
    (h : lookupKey kvs k = none) : getOrDefault kvs k p d = some d := by
  unfold getOrDefault
  rw [h]

theorem getOrDefault_of_some {α : Type _} {kvs : List (String × Json F)}
    {k : String} {p : Json F → Option α} {d : α} {j : Json F}
    (h : lookupKey kvs k = some j) : getOrDefault kvs k p d = p j := by
  unfold getOrDefault
  rw [h]

theorem reverse_getElem_one {α : Type _} (l : List α) :
    l.reverse[1]? = if 2 ≤ l.length then l[l.length - 2]? else none := by
  by_cases h : 2 ≤ l.length
  · rw [if_pos h, List.getElem?_reverse (by omega)]
    have he : l.length - 1 - 1 = l.length - 2 := by omega
    rw [he]
  · rw [if_neg h, List.getElem?_eq_none]
    rw [List.length_reverse]
    omega

theorem filter_ne_zero_eq (o : Option Nat) :
    o.filter (fun fee => fee != 0) =
      o.bind (fun x => if x = 0 then none else some x) := by
  cases o with
  | none => rfl
  | some x => by_cases h : x = 0 <;> simp [Option.filter, h]

/-! ### The claims -/

/-- C1: for every `FeeHistory` value respecting the length invariants of
spec §3 (and the width bounds of its Rust integer types), deserializing
the result of serializing it yields the original value. -/
theorem claim_c1_roundtrip (fh : FeeHistory F) (hwf : fh.Wf) :
    deserialize (serialize fh) = some fh := by
  obtain ⟨hb, hbb, ho, hr, -, -, -⟩ := hwf
  show deserializeFields (serializeFields fh) = some fh
  rw [deserializeFields_eq_some]
  refine ⟨?_, ?_, ?_, ?_, ?_, ?_⟩
  · by_cases h : fh.base_fee_per_gas.isEmpty
    · rw [getOrDefault_of_none (by rw [lookup_ser_baseFeePerGas, if_pos h])]
      rw [List.isEmpty_iff.mp h]
    · rw [getOrDefault_of_some (by rw [lookup_ser_baseFeePerGas, if_neg h])]
      exact parseU128Vec_encode _ hb
  · rw [lookup_ser_gasUsedRatio]
    simpa using parseNumVec_map fh.gas_used_ratio
  · by_cases h : fh.base_fee_per_blob_gas.isEmpty
    · rw [getOrDefault_of_none (by rw [lookup_ser_baseFeePerBlobGas, if_pos h])]
      rw [List.isEmpty_iff.mp h]
    · rw [getOrDefault_of_some (by rw [lookup_ser_baseFeePerBlobGas, if_neg h])]
      exact parseU128Vec_encode _ hbb
  · by_cases h : fh.blob_gas_used_ratio.isEmpty
    · rw [getOrDefault_of_none (by rw [lookup_ser_blobGasUsedRatio, if_pos h])]
      rw [List.isEmpty_iff.mp h]
    · rw [getOrDefault_of_some (by rw [lookup_ser_blobGasUsedRatio, if_neg h])]
      exact parseNumVec_map _
  · rw [getOrDefault_of_some (by rw [lookup_ser_oldestBlock])]
    simp [parseU64, parseHexString_toHexString 64 _ ho]
  · cases hrw : fh.reward with
    | none =>
      rw [getOrDefault_of_none (by rw [lookup_ser_reward, hrw]; rfl)]
    | some r =>
      rw [getOrDefault_of_some (j := Json.arr
            (r.map (fun inner => encodeU128Vec inner)))
          (by rw [lookup_ser_reward, hrw]; rfl)]
      have hb' : ∀ inner ∈ r, ∀ x ∈ inner, x < 2 ^ 128 := by
        rw [hrw] at hr
        simpa using hr
      simp [parseRewardVec_encode r hb']

/-- Witness for C1 at a concrete well-formed record with every field
populated. -/
theorem claim_c1_roundtrip_witness :
    (⟨[16, 32, 1], ["0.5", "0.6"], [1, 2, 3], ["0.1", "0.2"], 5,
        some [[1, 2], [3, 4]]⟩ : FeeHistory String).Wf ∧
    deserialize (serialize
        (⟨[16, 32, 1], ["0.5", "0.6"], [1, 2, 3], ["0.1", "0.2"], 5,
          some [[1, 2], [3, 4]]⟩ : FeeHistory String)) =
      some ⟨[16, 32, 1], ["0.5", "0.6"], [1, 2, 3], ["0.1", "0.2"], 5,
        some [[1, 2], [3, 4]]⟩ :=
  ⟨by decide, claim_c1_roundtrip _ (by decide)⟩

/-- C2: serializing with an empty `base_fee_per_gas`
(resp. `base_fee_per_blob_gas`, `blob_gas_used_ratio`) omits the
corresponding key, and those keys are present whenever the field is
non-empty; `gasUsedRatio` is always emitted, as the (possibly empty)
array of the field's elements. -/
theorem claim_c2_omission (fh : FeeHistory F) :
    (lookupKey (serializeFields fh) "baseFeePerGas" = none ↔
      fh.base_fee_per_gas = []) ∧
    (lookupKey (serializeFields fh) "baseFeePerBlobGas" = none ↔
      fh.base_fee_per_blob_gas = []) ∧
    (lookupKey (serializeFields fh) "blobGasUsedRatio" = none ↔
      fh.blob_gas_used_ratio = []) ∧
    lookupKey (serializeFields fh) "gasUsedRatio" =
      some (Json.arr (fh.gas_used_ratio.map Json.num)) := by
  refine ⟨?_, ?_, ?_, lookup_ser_gasUsedRatio fh⟩
  · rw [lookup_ser_baseFeePerGas]
    by_cases h : fh.base_fee_per_gas.isEmpty
    · simp [h, List.isEmpty_iff.mp h]
    · have hne : fh.base_fee_per_gas ≠ [] :=
        fun hc => h (List.isEmpty_iff.mpr hc)
      simp [h, hne]
  · rw [lookup_ser_baseFeePerBlobGas]
    by_cases h : fh.base_fee_per_blob_gas.isEmpty
    · simp [h, List.isEmpty_iff.mp h]
    · have hne : fh.base_fee_per_blob_gas ≠ [] :=
        fun hc => h (List.isEmpty_iff.mpr hc)
      simp [h, hne]
  · rw [lookup_ser_blobGasUsedRatio]
    by_cases h : fh.blob_gas_used_ratio.isEmpty
    · simp [h, List.isEmpty_iff.mp h]
    · have hne : fh.blob_gas_used_ratio ≠ [] :=
        fun hc => h (List.isEmpty_iff.mpr hc)
      simp [h, hne]

/-- C3: `latest_block_base_fee` is the second-to-last element of
`base_fee_per_gas` (none when fewer than 2 elements exist) and
`next_block_base_fee` is the last element (none when empty); in
particular on `[A, B]` they return `A` and `B`, on `[A]` they return
none and `A`, and on `[]` both return none. -/
theorem claim_c3_base_fee_indexing (fh : FeeHistory F) :
    fh.latest_block_base_fee =
      (if 2 ≤ fh.base_fee_per_gas.length then
        fh.base_fee_per_gas[fh.base_fee_per_gas.length - 2]? else none) ∧
    fh.next_block_base_fee =
      fh.base_fee_per_gas[fh.base_fee_per_gas.length - 1]? ∧
    (∀ A B, fh.base_fee_per_gas = [A, B] →
      fh.latest_block_base_fee = some A ∧ fh.next_block_base_fee = some B) ∧
    (∀ A, fh.base_fee_per_gas = [A] →
      fh.next_block_base_fee = some A ∧ fh.latest_block_base_fee = none) ∧
    (fh.base_fee_per_gas = [] →
      fh.latest_block_base_fee = none ∧ fh.next_block_base_fee = none) := by
  refine ⟨?_, ?_, ?_, ?_, ?_⟩
  · unfold FeeHistory.latest_block_base_fee
    exact reverse_getElem_one _
  · unfold FeeHistory.next_block_base_fee
    rw [List.getLast?_eq_getElem?]
  · intro A B h
    constructor <;>
      simp [FeeHistory.latest_block_base_fee, FeeHistory.next_block_base_fee, h]
  · intro A h
    constructor <;>
      simp [FeeHistory.latest_block_base_fee, FeeHistory.next_block_base_fee, h]
  · intro h
    constructor <;>
      simp [FeeHistory.latest_block_base_fee, FeeHistory.next_block_base_fee, h]

/-- Witness for C3 on the two-, one- and zero-element shapes. -/
theorem claim_c3_base_fee_indexing_witness :
    (⟨[10, 20], [], [], [], 0, none⟩ : FeeHistory Unit).latest_block_base_fee =
        some 10 ∧
    (⟨[10, 20], [], [], [], 0, none⟩ : FeeHistory Unit).next_block_base_fee =
        some 20 ∧
    (⟨[7], [], [], [], 0, none⟩ : FeeHistory Unit).next_block_base_fee =
        some 7 ∧
    (⟨[7], [], [], [], 0, none⟩ : FeeHistory Unit).latest_block_base_fee =
        none ∧
    (⟨[], [], [], [], 0, none⟩ : FeeHistory Unit).latest_block_base_fee =
        none := by
  refine ⟨?_, ?_, ?_, ?_, ?_⟩
  · exact ((claim_c3_base_fee_indexing _).2.2.1 10 20 rfl).1
  · exact ((claim_c3_base_fee_indexing _).2.2.1 10 20 rfl).2
  · exact ((claim_c3_base_fee_indexing _).2.2.2.1 7 rfl).1
  · exact ((claim_c3_base_fee_indexing _).2.2.2.1 7 rfl).2
  · exact ((claim_c3_base_fee_indexing _).2.2.2.2 rfl).1

/-- C4: `next_block_blob_base_fee` is the last element of
`base_fee_per_blob_gas` unless the list is empty or that element is 0,
and `latest_block_blob_base_fee` is the second-to-last element unless
fewer than 2 elements exist or that element is 0; a raw value of 0 always
yields none. -/
theorem claim_c4_blob_zero_filter (fh : FeeHistory F) :
    fh.next_block_blob_base_fee =
      (fh.base_fee_per_blob_gas[fh.base_fee_per_blob_gas.length - 1]?).bind
        (fun x => if x = 0 then none else some x) ∧
    fh.latest_block_blob_base_fee =
      (if 2 ≤ fh.base_fee_per_blob_gas.length then
          fh.base_fee_per_blob_gas[fh.base_fee_per_blob_gas.length - 2]?
        else none).bind (fun x => if x = 0 then none else some x) ∧
    (fh.base_fee_per_blob_gas.getLast? = some 0 →
      fh.next_block_blob_base_fee = none) ∧
    (fh.base_fee_per_blob_gas[fh.base_fee_per_blob_gas.length - 2]? = some 0 →
      fh.latest_block_blob_base_fee = none) ∧
    (fh.base_fee_per_blob_gas = [] → fh.next_block_blob_base_fee = none) ∧
    (fh.base_fee_per_blob_gas.length < 2 →
      fh.latest_block_blob_base_fee = none) := by
  refine ⟨?_, ?_, ?_, ?_, ?_, ?_⟩
  · unfold FeeHistory.next_block_blob_base_fee
    rw [filter_ne_zero_eq, List.getLast?_eq_getElem?]
  · unfold FeeHistory.latest_block_blob_base_fee
    rw [filter_ne_zero_eq, reverse_getElem_one]
  · intro h
    unfold FeeHistory.next_block_blob_base_fee
    rw [h]
    rfl
  · intro h
    unfold FeeHistory.latest_block_blob_base_fee
    rw [reverse_getElem_one]
    by_cases hl : 2 ≤ fh.base_fee_per_blob_gas.length
    · rw [if_pos hl, h]
      rfl
    · rw [if_neg hl]
      rfl
  · intro h
    unfold FeeHistory.next_block_blob_base_fee
    rw [h]
    rfl
  · intro h
    unfold FeeHistory.latest_block_blob_base_fee
    rw [reverse_getElem_one, if_neg (by omega)]
    rfl

/-- Witness for C4: a zero last element and a zero second-to-last element
are both filtered to none. -/
theorem claim_c4_blob_zero_filter_witness :
    (⟨[], [], [3, 0], [], 0, none⟩ : FeeHistory Unit).next_block_blob_base_fee =
        none ∧
    (⟨[], [], [0, 7], [], 0, none⟩ : FeeHistory Unit).latest_block_blob_base_fee =
        none ∧
    (⟨[], [], [], [], 0, none⟩ : FeeHistory Unit).next_block_blob_base_fee =
        none := by
  refine ⟨?_, ?_, ?_⟩
  · exact (claim_c4_blob_zero_filter _).2.2.1 rfl
  · exact (claim_c4_blob_zero_filter _).2.2.2.1 rfl
  · exact (claim_c4_blob_zero_filter _).2.2.2.2.1 rfl

/-- C5: the `TxGasAndReward` comparison is a total order determined by
`reward` alone, ascending; `gas_used` is never consulted, so equal
rewards compare equal whatever the gas values. -/
theorem claim_c5_reward_ordering (a b : TxGasAndReward) :
    TxGasAndReward.cmp a b = compare a.reward b.reward ∧
    (∀ g g' : Nat, TxGasAndReward.cmp ⟨g, a.reward⟩ ⟨g', b.reward⟩ =
      TxGasAndReward.cmp a b) ∧
    (TxGasAndReward.cmp a b = Ordering.eq ↔ a.reward = b.reward) ∧
    (TxGasAndReward.cmp a b = Ordering.lt ↔ a.reward < b.reward) ∧
    TxGasAndReward.cmp b a = (TxGasAndReward.cmp a b).swap ∧
    (∀ c, TxGasAndReward.cmp a b = Ordering.lt →
      TxGasAndReward.cmp b c = Ordering.lt →
      TxGasAndReward.cmp a c = Ordering.lt) := by
  refine ⟨rfl, fun g g' => rfl, ?_, ?_, ?_, ?_⟩
  · exact Nat.compare_eq_eq
  · exact Nat.compare_eq_lt
  · unfold TxGasAndReward.cmp
    rcases Nat.lt_trichotomy a.reward b.reward with h | h | h
    · rw [Nat.compare_eq_lt.mpr h, Nat.compare_eq_gt.mpr h]
      rfl
    · rw [h]
      rw [show compare b.reward b.reward = Ordering.eq from
        Nat.compare_eq_eq.mpr rfl]
      rfl
    · rw [Nat.compare_eq_gt.mpr h, Nat.compare_eq_lt.mpr h]
      rfl
  · intro c h1 h2
    unfold TxGasAndReward.cmp at h1 h2 ⊢
    rw [Nat.compare_eq_lt] at h1 h2 ⊢
    omega

/-- Witness for C5: equal rewards with different gas compare equal, and a
smaller reward compares less. -/
theorem claim_c5_reward_ordering_witness :
    TxGasAndReward.cmp ⟨1, 5⟩ ⟨99, 5⟩ = Ordering.eq ∧
    TxGasAndReward.cmp ⟨7, 3⟩ ⟨0, 4⟩ = Ordering.lt :=
  ⟨(claim_c5_reward_ordering ⟨1, 5⟩ ⟨99, 5⟩).2.2.1.mpr rfl,
   (claim_c5_reward_ordering ⟨7, 3⟩ ⟨0, 4⟩).2.2.2.1.mpr (by decide)⟩

theorem getOrDefault_congr {α : Type _} {kvs' kvs : List (String × Json F)}
    {k : String} {p : Json F → Option α} {d : α}
    (h : lookupKey kvs' k = lookupKey kvs k) :
    getOrDefault kvs' k p d = getOrDefault kvs k p d := by
  unfold getOrDefault
  rw [h]

/-- C6: the integer fields of `FeeHistory` (elements of `base_fee_per_gas`,
`base_fee_per_blob_gas`, `reward`, and `oldest_block`) serialize as
`0x`-prefixed hex strings without leading zeros, zero itself as `"0x0"`. -/
theorem claim_c6_hex_encoding (F : Type) :
    toHexString 0 = "0x0" ∧
    (∀ n : Nat, toHexString n = String.mk ('0' :: 'x' :: natHexDigits n)) ∧
    (∀ n : Nat, n ≠ 0 →
      natHexDigits n ≠ [] ∧ (natHexDigits n).head? ≠ some '0') ∧
    (∀ fh : FeeHistory F,
      lookupKey (serializeFields fh) "oldestBlock" =
        some (Json.str (toHexString fh.oldest_block)) ∧
      (fh.base_fee_per_gas ≠ [] →
        lookupKey (serializeFields fh) "baseFeePerGas" =
          some (Json.arr (fh.base_fee_per_gas.map
            (fun n => Json.str (toHexString n))))) ∧
      (fh.base_fee_per_blob_gas ≠ [] →
        lookupKey (serializeFields fh) "baseFeePerBlobGas" =
          some (Json.arr (fh.base_fee_per_blob_gas.map
            (fun n => Json.str (toHexString n))))) ∧
      (∀ r, fh.reward = some r →
        lookupKey (serializeFields fh) "reward" =
          some (Json.arr (r.map (fun inner =>
            Json.arr (inner.map (fun n => Json.str (toHexString n)))))))) := by
  refine ⟨rfl, fun n => rfl, ?_, ?_⟩
  · intro n hn
    exact ⟨natHexDigits_ne_nil n,
      natHexDigits_head_ne_zero n (Nat.pos_of_ne_zero hn)⟩
  · intro fh
    refine ⟨lookup_ser_oldestBlock fh, ?_, ?_, ?_⟩
    · intro h
      rw [lookup_ser_baseFeePerGas,
        if_neg (fun hc => h (List.isEmpty_iff.mp hc))]
      rfl
    · intro h
      rw [lookup_ser_baseFeePerBlobGas,
        if_neg (fun hc => h (List.isEmpty_iff.mp hc))]
      rfl
    · intro r hr
      rw [lookup_ser_reward, hr]
      rfl

/-- Witness for C6 at the sample values: `875000000` renders with a
non-zero leading digit and the sample record's fee array serializes to the
expected hex strings. -/
theorem claim_c6_hex_encoding_witness :
    natHexDigits 875000000 ≠ [] ∧
    (natHexDigits 875000000).head? ≠ some '0' ∧
    lookupKey (serializeFields sampleValue) "baseFeePerGas" =
      some (Json.arr [Json.str "0x342770c0", Json.str "0x2da282a8"]) := by
  have h := claim_c6_hex_encoding String
  refine ⟨(h.2.2.1 875000000 (by decide)).1,
    (h.2.2.1 875000000 (by decide)).2, ?_⟩
  rw [(h.2.2.2 sampleValue).2.1 (by decide)]
  rfl

/-- C7: the literal scenario of `test_fee_history_serde`: the sample input
deserializes to the expected value, re-serializes to the identical string,
and the four accessors return the documented results. -/
theorem claim_c7_literal_scenario :
    renderJson id 4 sampleInput = sampleWire ∧
    deserialize sampleInput = some sampleValue ∧
    serializeString id sampleValue = sampleWire ∧
    sampleValue.latest_block_base_fee = some 875000000 ∧
    sampleValue.next_block_base_fee = some 765625000 ∧
    sampleValue.next_block_blob_base_fee = none ∧
    sampleValue.latest_block_blob_base_fee = none := by
  refine ⟨by decide, by decide, by decide, by decide, by decide, by decide,
    by decide⟩

/-- C8: removing any subset of the omittable keys (`baseFeePerGas`,
`baseFeePerBlobGas`, `blobGasUsedRatio`, `reward`) from a successfully
deserializing input still deserializes successfully, with the removed
fields taking their defaults (empty sequence, resp. none). -/
theorem claim_c8_missing_defaults (kvs : List (String × Json F))
    (fh : FeeHistory F) (S : List String)
    (hS : ∀ s ∈ S, s = "baseFeePerGas" ∨ s = "baseFeePerBlobGas" ∨
      s = "blobGasUsedRatio" ∨ s = "reward")
    (h : deserialize (Json.obj kvs) = some fh) :
    deserialize (Json.obj (removeKeys S kvs)) =
      some ⟨if S.contains "baseFeePerGas" then [] else fh.base_fee_per_gas,
            fh.gas_used_ratio,
            if S.contains "baseFeePerBlobGas" then []
              else fh.base_fee_per_blob_gas,
            if S.contains "blobGasUsedRatio" then []
              else fh.blob_gas_used_ratio,
            fh.oldest_block,
            if S.contains "reward" then none else fh.reward⟩ := by
  have hgur : ("gasUsedRatio" : String) ∉ S := by
    intro hc
    rcases hS _ hc with h' | h' | h' | h' <;> exact absurd h' (by decide)
  have hob : ("oldestBlock" : String) ∉ S := by
    intro hc
    rcases hS _ hc with h' | h' | h' | h' <;> exact absurd h' (by decide)
  have hd : deserializeFields kvs = some fh := h
  rw [deserializeFields_eq_some] at hd
  obtain ⟨h1, h2, h3, h4, h5, h6⟩ := hd
  show deserializeFields (removeKeys S kvs) = some _
  rw [deserializeFields_eq_some]
  refine ⟨?_, ?_, ?_, ?_, ?_, ?_⟩
  · by_cases hm : S.contains "baseFeePerGas"
    · rw [getOrDefault_of_none (by rw [lookupKey_removeKeys, if_pos hm])]
      show some ([] : List Nat) = some (if S.contains "baseFeePerGas" = true
        then [] else fh.base_fee_per_gas)
      rw [if_pos hm]
    · have hco : lookupKey (removeKeys S kvs) "baseFeePerGas" =
          lookupKey kvs "baseFeePerGas" := by
        rw [lookupKey_removeKeys, if_neg hm]
      rw [getOrDefault_congr hco, h1]
      show some fh.base_fee_per_gas =
        some (if S.contains "baseFeePerGas" = true then []
          else fh.base_fee_per_gas)
      rw [if_neg hm]
  · have hco : lookupKey (removeKeys S kvs) "gasUsedRatio" =
        lookupKey kvs "gasUsedRatio" := by
      rw [lookupKey_removeKeys,
        if_neg (fun hc => hgur (List.mem_of_elem_eq_true hc))]
    rw [hco]
    exact h2
  · by_cases hm : S.contains "baseFeePerBlobGas"
    · rw [getOrDefault_of_none (by rw [lookupKey_removeKeys, if_pos hm])]
      show some ([] : List Nat) =
        some (if S.contains "baseFeePerBlobGas" = true then []
          else fh.base_fee_per_blob_gas)
      rw [if_pos hm]
    · have hco : lookupKey (removeKeys S kvs) "baseFeePerBlobGas" =
          lookupKey kvs "baseFeePerBlobGas" := by
        rw [lookupKey_removeKeys, if_neg hm]
      rw [getOrDefault_congr hco, h3]
      show some fh.base_fee_per_blob_gas =
        some (if S.contains "baseFeePerBlobGas" = true then []
          else fh.base_fee_per_blob_gas)
      rw [if_neg hm]
  · by_cases hm : S.contains "blobGasUsedRatio"
    · rw [getOrDefault_of_none (by rw [lookupKey_removeKeys, if_pos hm])]
      show some ([] : List F) =
        some (if S.contains "blobGasUsedRatio" = true then []
          else fh.blob_gas_used_ratio)
      rw [if_pos hm]
    · have hco : lookupKey (removeKeys S kvs) "blobGasUsedRatio" =
          lookupKey kvs "blobGasUsedRatio" := by
        rw [lookupKey_removeKeys, if_neg hm]
      rw [getOrDefault_congr hco, h4]
      show some fh.blob_gas_used_ratio =
        some (if S.contains "blobGasUsedRatio" = true then []
          else fh.blob_gas_used_ratio)
      rw [if_neg hm]
  · have hco : lookupKey (removeKeys S kvs) "oldestBlock" =
        lookupKey kvs "oldestBlock" := by
      rw [lookupKey_removeKeys,
        if_neg (fun hc => hob (List.mem_of_elem_eq_true hc))]
    rw [getOrDefault_congr hco, h5]
  · by_cases hm : S.contains "reward"
    · rw [getOrDefault_of_none (by rw [lookupKey_removeKeys, if_pos hm])]
      show some (none : Option (List (List Nat))) =
        some (if S.contains "reward" = true then none else fh.reward)
      rw [if_pos hm]
    · have hco : lookupKey (removeKeys S kvs) "reward" =
          lookupKey kvs "reward" := by
        rw [lookupKey_removeKeys, if_neg hm]
      rw [getOrDefault_congr hco, h6]
      show some fh.reward =
        some (if S.contains "reward" = true then none else fh.reward)
      rw [if_neg hm]

/-- Witness for C8: the sample input with all four omittable keys removed
still deserializes, with the three array fields empty and `reward` none. -/
theorem claim_c8_missing_defaults_witness :
    (∀ s ∈ (["baseFeePerGas", "baseFeePerBlobGas", "blobGasUsedRatio",
        "reward"] : List String), s = "baseFeePerGas" ∨
      s = "baseFeePerBlobGas" ∨ s = "blobGasUsedRatio" ∨ s = "reward") ∧
    deserialize (Json.obj sampleKvs) = some sampleValue ∧
    deserialize (Json.obj (removeKeys ["baseFeePerGas", "baseFeePerBlobGas",
        "blobGasUsedRatio", "reward"] sampleKvs)) =
      some ⟨[], ["0.0"], [], [], 1, none⟩ :=
  ⟨by decide, by decide,
   claim_c8_missing_defaults sampleKvs sampleValue
     ["baseFeePerGas", "baseFeePerBlobGas", "blobGasUsedRatio", "reward"]
     (by decide) (by decide)⟩

/-- C9: an empty-but-present `reward` is distinguishable from an absent
one: `Some []` serializes to the key with value `[]` (only none omits the
key), and deserializing `"reward":[]` yields `Some []`. -/
theorem claim_c9_reward_empty_distinct (fh : FeeHistory F)
    (kvs : List (String × Json F)) (fh' : FeeHistory F) :
    (fh.reward = some [] →
      lookupKey (serializeFields fh) "reward" = some (Json.arr [])) ∧
    (lookupKey (serializeFields fh) "reward" = none ↔ fh.reward = none) ∧
    (lookupKey kvs "reward" = some (Json.arr []) →
      deserializeFields kvs = some fh' → fh'.reward = some []) := by
  refine ⟨?_, ?_, ?_⟩
  · intro h
    rw [lookup_ser_reward, h]
    rfl
  · rw [lookup_ser_reward]
    cases fh.reward <;> simp
  · intro hl hd
    rw [deserializeFields_eq_some] at hd
    obtain ⟨-, -, -, -, -, h6⟩ := hd
    rw [getOrDefault_of_some hl] at h6
    have h7 : some (some ([] : List (List Nat))) = some fh'.reward := h6
    exact (Option.some.inj h7).symm

/-- Witness for C9: a record with `reward = Some []` keeps the key on the
wire, and an input with `"reward":[]` deserializes to `Some []`. -/
theorem claim_c9_reward_empty_distinct_witness :
    lookupKey (serializeFields (⟨[], [], [], [], 0, some []⟩ :
        FeeHistory Unit)) "reward" = some (Json.arr []) ∧
    (⟨[], [], [], [], 0, some []⟩ : FeeHistory Unit).reward = some [] := by
  have h := claim_c9_reward_empty_distinct
    (F := Unit) ⟨[], [], [], [], 0, some []⟩
    [("gasUsedRatio", Json.arr []), ("reward", Json.arr [])]
    ⟨[], [], [], [], 0, some []⟩
  exact ⟨h.1 rfl, h.2.2 rfl rfl⟩

/-- C10: deserializing an otherwise well-formed input that lacks the
`oldestBlock` key succeeds and yields `oldest_block = 0`, conflating a
missing field with a genuine zero. -/
theorem claim_c10_missing_oldest_block (kvs : List (String × Json F))
    (fh : FeeHistory F) (h : deserialize (Json.obj kvs) = some fh) :
    (lookupKey kvs "oldestBlock" = none → fh.oldest_block = 0) ∧
    deserialize (Json.obj (removeKeys ["oldestBlock"] kvs)) =
      some ⟨fh.base_fee_per_gas, fh.gas_used_ratio, fh.base_fee_per_blob_gas,
        fh.blob_gas_used_ratio, 0, fh.reward⟩ := by
  have hd : deserializeFields kvs = some fh := h
  rw [deserializeFields_eq_some] at hd
  obtain ⟨h1, h2, h3, h4, h5, h6⟩ := hd
  constructor
  · intro hnone
    rw [getOrDefault_of_none hnone] at h5
    exact (Option.some.inj h5).symm
  · show deserializeFields _ = _
    rw [deserializeFields_eq_some]
    have hkeep : ∀ k : String,
        (["oldestBlock"] : List String).contains k = false →
        lookupKey (removeKeys ["oldestBlock"] kvs) k = lookupKey kvs k := by
      intro k hk
      rw [lookupKey_removeKeys, hk]
      rfl
    refine ⟨?_, ?_, ?_, ?_, ?_, ?_⟩
    · rw [getOrDefault_congr (hkeep "baseFeePerGas" (by decide)), h1]
    · rw [hkeep "gasUsedRatio" (by decide)]
      exact h2
    · rw [getOrDefault_congr (hkeep "baseFeePerBlobGas" (by decide)), h3]
    · rw [getOrDefault_congr (hkeep "blobGasUsedRatio" (by decide)), h4]
    · rw [getOrDefault_of_none (by rw [lookupKey_removeKeys]; rfl)]
    · rw [getOrDefault_congr (hkeep "reward" (by decide)), h6]

/-- Witness for C10: input with only `gasUsedRatio` yields
`oldest_block = 0`, and removing `oldestBlock` from the sample input still
deserializes, with `oldest_block` reset to 0. -/
theorem claim_c10_missing_oldest_block_witness :
    (⟨[], [], [], [], 0, none⟩ : FeeHistory Unit).oldest_block = 0 ∧
    deserialize (Json.obj (removeKeys ["oldestBlock"] sampleKvs)) =
      some ⟨[875000000, 765625000], ["0.0"], [0, 0], ["0.0"], 0, none⟩ :=
  ⟨(claim_c10_missing_oldest_block
      [(("gasUsedRatio" : String), (Json.arr [] : Json Unit))]
      ⟨[], [], [], [], 0, none⟩ rfl).1 rfl,
   (claim_c10_missing_oldest_block sampleKvs sampleValue (by decide)).2⟩

end AlloyFee
